import Mathlib

/-!
# disgo: the REST retry driver and the webhook message-update builder

A shallow embedding of

* `rest/rest_client.go`: `clientImpl.retry` and `clientImpl.Do`,
* `webhook/webhook_message_update_builder.go`: `RemoveEmbed`, `RemoveActionRow`, `RemoveFiles`.

Everything `retry` calls outside its own file (the rate limiter, the HTTP client, the JSON
and URL encoders, the request options) is a field of the client record: a function that
answers what the collaborator answers. Collaborators whose answer may change from one
attempt to the next take the attempt number `tries` as an argument. Every call to a
collaborator that a claim talks about is recorded, in program order, in a list of events.
-/

namespace Disgo

/-! ## Data model -/

/-- Raw bytes (`[]byte`, the content of a `bytes.Buffer`), one number per byte. -/
abbrev Bytes := List Nat

/-- An `http.Header` as the list of its (key, value) entries, keys already canonical. -/
abbrev Header := List (String × String)

/-- The method `Header.Set`: replaces whatever is stored under `key` by the single `value`. -/
def Header.Set (h : Header) (key value : String) : Header :=
  h.filter (fun kv => kv.1 != key) ++ [(key, value)]

/-- The method `Header.Get`: the value stored under `key`, the empty string when there is none. -/
def Header.Get (h : Header) (key : String) : String :=
  match h.find? (fun kv => kv.1 == key) with
  | some kv => kv.2
  | none => ""

/-- Whether the header has an entry under `key`. -/
def Header.Has (h : Header) (key : String) : Bool :=
  h.any (fun kv => kv.1 == key)

/-- The type `url.Values`. -/
abbrev Values := List (String × List String)

/-- The fields of an `*http.Request` that `retry` sets. -/
structure Request where
  Method : String
  URL : String
  Header : Header
  Body : Bytes
  deriving DecidableEq, Repr

/-- The fields of an `*http.Response` that `retry` reads. `Body` is `none` for a nil
`rs.Body`, and otherwise the bytes that reading the body to its end yields. A response that
`(*http.Client).Do` returns has a `Body` that is not nil: for a response without content it
is an empty reader, `some []` here. -/
structure Response where
  StatusCode : Int
  Header : Header
  Body : Option Bytes
  deriving DecidableEq, Repr

/-- The type `discord.APIError`, the structured error body of the API. -/
structure APIError where
  Code : Int
  Message : String
  deriving DecidableEq, Repr

/-- The Go `error` values that `retry` can return. `foreign` is an error made by a
collaborator (JSON encoder or decoder, `http.NewRequest`, the context, the rate limiter, the
HTTP client). `Wrap` is `errors.Wrap` of `github.com/pkg/errors`. `NewError`, `NewErrorErr`
and `NewErrorAPIErr` are the three error constructors of the `rest` package; their file is
not among the sources, so each is kept as a constructor that records its arguments in the
order of the call. -/
inductive Error where
  | foreign (msg : String)
  | ErrCheckFailed
  | Wrap (cause : Error) (message : String)
  | NewError (rq : Request) (rqBody : Bytes) (rs : Response) (rsBody : Bytes)
  | NewErrorErr (rq : Request) (rqBody : Bytes) (rs : Response) (rsBody : Bytes) (err : Error)
  | NewErrorAPIErr (rq : Request) (rqBody : Bytes) (rs : Response) (rsBody : Bytes)
      (apiError : APIError)
  deriving DecidableEq, Repr

/-- The function `errors.Cause`: the innermost error under the `Wrap` layers. -/
def Error.Cause : Error → Error
  | .Wrap cause _ => Error.Cause cause
  | e => e

/-- The argument `rqBody interface{}` when it is not nil, by the three arms of the type
switch. A `*discord.MultipartBuffer` is its `Buffer` (the bytes not yet read from the
`*bytes.Buffer`) and its `ContentType`; `other` is any value of any other type. -/
inductive RqBody (α : Type) where
  | multipart (Buffer : Bytes) (ContentType : String)
  | urlValues (v : Values)
  | other (v : α)
  deriving DecidableEq, Repr

/-- A `context.Context` as the pre-send delay observes it: `Done tries` is `some e` when,
in attempt number `tries`, the `Done` channel wins the `select` against the timer, `e` being
what `Err()` then returns; `none` when the timer wins. -/
structure Context where
  Done : Int → Option Error

/-- The context `context.TODO()`: never done. -/
def Context.TODO : Context := ⟨fun _ => none⟩

/-- A pre-send check, `func() bool`. The function is not pure in Go, so its answer may
depend on the attempt in which it is called. -/
abbrev Check := Int → Bool

/-- The struct `RequestConfig`, together with the one object an option can reach through
it: `Request` is the request `config.Request` points to, and `rq` is the request made at
line 125, which the local variable `rq` of `retry` keeps pointing to. The two start as the
same object: an option that changes the request in place (sets a header, say) changes both
fields alike, and an option that stores another request in `config.Request` changes
`Request` only. `Delay` is a `time.Duration`, a signed integer. -/
structure RequestConfig where
  Request : Request
  Ctx : Context
  Checks : List Check
  Delay : Int
  rq : Disgo.Request

/-- The type `RequestOpt`, `func(config *RequestConfig)`: an update of the configuration. -/
abbrev RequestOpt := RequestConfig → RequestConfig

/-- Modelled from the spec: `RequestConfig.Apply`, whose file is not among the sources.
The options are folded, in order, over the configuration; a context that no option sets is
`context.TODO()`, which is already the value the configuration starts from here. -/
def RequestConfig.Apply (config : RequestConfig) (opts : List RequestOpt) : RequestConfig :=
  opts.foldl (fun cfg opt => opt cfg) config

/-- The fields of a `*route.CompiledAPIRoute` that `retry` reads: `APIRoute.Method().String()`
and `URL()`. -/
structure CompiledAPIRoute where
  Method : String
  URL : String
  deriving DecidableEq, Repr

/-- The receiver `c *clientImpl` together with the collaborators `retry` calls through it.

* `UserAgent`: `c.Config().UserAgent`;
* `MaxRetries`: `c.RateLimiter().Config().MaxRetries`, a Go `int`;
* `WaitBucket tries`: the error `c.RateLimiter().WaitBucket(ctx, cRoute)` returns in attempt
  `tries` (`none` for nil: the bucket is admitted);
* `UnlockBucket tries headers`: the error `c.RateLimiter().UnlockBucket(cRoute, headers)`
  returns in attempt `tries`, `headers = none` being the nil header;
* `HTTPClientDo tries rq`: what `c.HTTPClient().Do(rq)` returns in attempt `tries`;
* `jsonEncode`: `json.NewEncoder(buffer).Encode(v)`, the bytes written or the error;
* `urlEncode`: `url.Values.Encode`;
* `NewRequestErr method url`: the error of `http.NewRequest(method, url, _)`, if any;
* `jsonDecode body target`: `json.NewDecoder(body).Decode(target)`: the value the target
  holds afterwards and the error;
* `decodeAPIError body`: the same decoder on a fresh `discord.APIError`. -/
structure clientImpl (α β : Type) where
  UserAgent : String
  MaxRetries : Int
  WaitBucket : Int → Option Error
  UnlockBucket : Int → Option Header → Option Error
  HTTPClientDo : Int → Request → Except Error Response
  jsonEncode : α → Except Error Bytes
  urlEncode : Values → Bytes
  NewRequestErr : String → String → Option Error
  jsonDecode : Bytes → β → β × Option Error
  decodeAPIError : Bytes → Except Error APIError

deriving instance DecidableEq for Except

/-- One call of `retry` to a collaborator, tagged with the value of `tries` of the call
that made it, and carrying the arguments and the answer. `delay` is the `select` of a
positive pre-send delay, with the error of the context when the context was done first;
`decode` is a call of a JSON decoder on the response body. -/
inductive Event where
  | delay (tries : Int) (done : Option Error)
  | waitBucket (tries : Int) (err : Option Error)
  | check (tries : Int) (index : Nat) (result : Bool)
  | unlockBucket (tries : Int) (headers : Option Header) (err : Option Error)
  | httpDo (tries : Int) (rq : Request) (result : Except Error Response)
  | decode (tries : Int) (body : Bytes)
  deriving DecidableEq

/-- The attempt (value of `tries`) an event belongs to. -/
def Event.tries : Event → Int
  | .delay t _ => t
  | .waitBucket t _ => t
  | .check t _ _ => t
  | .unlockBucket t _ _ => t
  | .httpDo t _ _ => t
  | .decode t _ => t

/-- An event that is the wait of a positive pre-send delay. -/
def Event.isDelay : Event → Bool
  | .delay _ _ => true
  | _ => false

/-- An event that is an HTTP exchange. -/
def Event.isHTTPDo : Event → Bool
  | .httpDo _ _ _ => true
  | _ => false

/-- An event that is a call of `WaitBucket`. -/
def Event.isWaitBucket : Event → Bool
  | .waitBucket _ _ => true
  | _ => false

/-- An event that is a call of `UnlockBucket`. -/
def Event.isUnlockBucket : Event → Bool
  | .unlockBucket _ _ _ => true
  | _ => false

/-- An event that is a call of a JSON decoder. -/
def Event.isDecode : Event → Bool
  | .decode _ _ => true
  | _ => false

/-- An event that is the evaluation of a pre-send check. -/
def Event.isCheck : Event → Bool
  | .check _ _ _ => true
  | _ => false

/-- The headers argument of the `UnlockBucket` calls among the events, in order. -/
def unlockArgs : List Event → List (Option Header)
  | [] => []
  | .unlockBucket _ h _ :: es => h :: unlockArgs es
  | _ :: es => unlockArgs es

/-- The request bodies handed to `HTTPClient().Do`, in order. -/
def sentBodies : List Event → List Bytes
  | [] => []
  | .httpDo _ rq _ :: es => rq.Body :: sentBodies es
  | _ :: es => sentBodies es

/-- The number of HTTP exchanges among the events. -/
def httpCount (es : List Event) : Nat := es.countP Event.isHTTPDo

/-- How a call ends: it returns an `error` (`none` is nil), or it panics, or the fuel of the
embedding is used up (which `retry` never does, see `retryFuel_enough`). -/
inductive Outcome where
  | returned (err : Option Error)
  | panicked
  | outOfFuel
  deriving DecidableEq, Repr

/-- What a call of `retry` leaves behind: the collaborator calls it made, how it ended, the
request body afterwards (a multipart buffer is read by the call) and the value the result
target `rsBody` holds afterwards (`none` for a nil target). -/
structure Run (α β : Type) where
  events : List Event
  outcome : Outcome
  rqBody : Option (RqBody α)
  rsBody : Option β
  deriving DecidableEq

/-! ## `rest/rest_client.go` -/

variable {α β : Type}

/-- Lines 98-123 of `retry`: the type switch on `rqBody`. The result is `rawRqBody`, which
is also the content of `rqBuffer` (the tee reader copies every byte read), with `contentType`;
the second component is the request body afterwards: reading a multipart buffer to its end
leaves it empty. -/
def encodeBody (c : clientImpl α β) :
    Option (RqBody α) → Except Error (Bytes × String) × Option (RqBody α)
  | none => (.ok ([], ""), none)
  | some (.multipart buffer contentType) =>
    (.ok (buffer, contentType), some (.multipart [] contentType))
  | some (.urlValues v) =>
    (.ok (c.urlEncode v, "application/x-www-form-urlencoded"), some (.urlValues v))
  | some (.other v) =>
    match c.jsonEncode v with
    | .error err => (.error err, some (.other v))
    | .ok buffer => (.ok (buffer, "application/json"), some (.other v))

/-- Lines 125-133 of `retry`: `http.NewRequest` and the two headers. -/
def newRequest (c : clientImpl α β) (cRoute : CompiledAPIRoute) (rqBuffer : Bytes)
    (contentType : String) : Except Error Request :=
  match c.NewRequestErr cRoute.Method cRoute.URL with
  | some err => .error err
  | none =>
    let rq : Request := ⟨cRoute.Method, cRoute.URL, [], rqBuffer⟩
    let rq : Request := { rq with Header := Header.Set rq.Header "User-Agent" c.UserAgent }
    if contentType != "" then
      .ok { rq with Header := Header.Set rq.Header "Content-Type" contentType }
    else
      .ok rq

/-- Lines 97-133 of `retry`: the request as it stands before the options are applied,
with `rawRqBody`; the second component is the request body afterwards. -/
def buildRequest (c : clientImpl α β) (cRoute : CompiledAPIRoute) (rqBody : Option (RqBody α)) :
    Except Error (Request × Bytes) × Option (RqBody α) :=
  match encodeBody c rqBody with
  | (.error err, rqBody1) => (.error err, rqBody1)
  | (.ok (rawRqBody, contentType), rqBody1) =>
    match newRequest c cRoute rawRqBody contentType with
    | .error err => (.error err, rqBody1)
    | .ok rq => (.ok (rq, rawRqBody), rqBody1)

/-- Lines 138-144 of `retry`: with a positive delay, the `select` between the `Done`
channel of the context and the timer. The result is the event and the error to return, if
the context was done first. -/
def waitDelay (config : RequestConfig) (tries : Int) : List Event × Option Error :=
  if config.Delay > 0 then
    ([.delay tries (config.Ctx.Done tries)], config.Ctx.Done tries)
  else
    ([], none)

/-- Lines 153-158 of `retry`: the loop over `config.Checks`, from the check number `index`
on. It stops at the first check that returns false. The result is the checks evaluated and
whether all of them passed. -/
def runChecks (tries : Int) : List Check → Nat → List Event × Bool
  | [], _ => ([], true)
  | check :: rest, index =>
    if !check tries then
      ([.check tries index false], false)
    else
      let r := runChecks tries rest (index + 1)
      (.check tries index true :: r.1, r.2)

/-- The method `retry`, lines 96-205, with a fuel that bounds the depth of the recursion.
The request sent is `config.Request` (line 160); the `rq` of the error constructors is
the local variable of lines 125 and 151, which an option that replaces `config.Request`
leaves behind.

`tries + 1` does not overflow: it is computed only when `tries < MaxRetries`. -/
def retryFuel (c : clientImpl α β) (cRoute : CompiledAPIRoute) :
    Nat → Option (RqBody α) → Option β → Int → List RequestOpt → Run α β
  | 0, rqBody, rsBody, _, _ => ⟨[], .outOfFuel, rqBody, rsBody⟩
  | fuel + 1, rqBody, rsBody, tries, opts =>
    match buildRequest c cRoute rqBody with
    | (.error err, rqBody1) => ⟨[], .returned (some err), rqBody1, rsBody⟩
    | (.ok (rq0, rawRqBody), rqBody1) =>
    let config := RequestConfig.Apply ⟨rq0, Context.TODO, [], 0, rq0⟩ opts  -- lines 135-136
    let rq := config.rq
    let delayed := waitDelay config tries
    match delayed.2 with
    | some err => ⟨delayed.1, .returned (some err), rqBody1, rsBody⟩
    | none =>
    -- wait for rate limits
    match c.WaitBucket tries with
    | some err =>
      ⟨delayed.1 ++ [.waitBucket tries (some err)],
        .returned (some (.Wrap err "error locking bucket in rest client")), rqBody1, rsBody⟩
    | none =>
    let checked := runChecks tries config.Checks 0
    let admitted := delayed.1 ++ .waitBucket tries none :: checked.1
    if checked.2 = false then
      ⟨admitted ++ [.unlockBucket tries none (c.UnlockBucket tries none)],
        .returned (some .ErrCheckFailed), rqBody1, rsBody⟩
    else
    let result := c.HTTPClientDo tries config.Request
    let sent := admitted ++ [.httpDo tries config.Request result]
    match result with
    | .error err =>
      ⟨sent, .returned (some (.Wrap err "error doing request in rest client")), rqBody1, rsBody⟩
    | .ok rs =>
    match c.UnlockBucket tries (some rs.Header) with
    | some err =>
      ⟨sent ++ [.unlockBucket tries (some rs.Header) (some err)],
        .returned (some (.Wrap err "error unlocking bucket in rest client")), rqBody1, rsBody⟩
    | none =>
    let evs := sent ++ [.unlockBucket tries (some rs.Header) none]
    -- lines 170-176: `rawRsBody` is what `rs.Body` holds; only the log line reads it
    if rs.StatusCode = 200 ∨ rs.StatusCode = 201 ∨ rs.StatusCode = 204 then
      match rsBody, rs.Body with
      | some target, some body =>
        match c.jsonDecode body target with
        | (target1, some err) =>
          ⟨evs ++ [.decode tries body],
            .returned (some (.NewErrorErr rq rawRqBody rs rawRqBody
              (.Wrap err "error unmarshalling response body"))), rqBody1, some target1⟩
        | (target1, none) => ⟨evs ++ [.decode tries body], .returned none, rqBody1, some target1⟩
      | _, _ => ⟨evs, .returned none, rqBody1, rsBody⟩
    else if rs.StatusCode = 502 ∨ rs.StatusCode = 401 then
      ⟨evs, .returned (some (.NewError rq rawRqBody rs rawRqBody)), rqBody1, rsBody⟩
    else if rs.StatusCode = 429 then
      if tries ≥ c.MaxRetries then
        ⟨evs, .returned (some (.NewError rq rawRqBody rs rawRqBody)), rqBody1, rsBody⟩
      else
        let r := retryFuel c cRoute fuel rqBody1 rsBody (tries + 1) opts
        ⟨evs ++ r.events, r.outcome, r.rqBody, r.rsBody⟩
    else
      match rs.Body with
      | none => ⟨evs, .panicked, rqBody1, rsBody⟩
      | some body =>
        match c.decodeAPIError body with
        | .error err =>
          ⟨evs ++ [.decode tries body],
            .returned (some (.Wrap err "error unmarshalling error response body")),
            rqBody1, rsBody⟩
        | .ok v =>
          ⟨evs ++ [.decode tries body],
            .returned (some (.NewErrorAPIErr rq rawRqBody rs rawRqBody v)), rqBody1, rsBody⟩

/-- The method `retry`: the recursion is entered only while `tries < MaxRetries`, so
`MaxRetries - tries` further calls, and the call itself, are all there can be. -/
def retry (c : clientImpl α β) (cRoute : CompiledAPIRoute) (rqBody : Option (RqBody α))
    (rsBody : Option β) (tries : Int) (opts : List RequestOpt) : Run α β :=
  retryFuel c cRoute ((c.MaxRetries - tries).toNat + 1) rqBody rsBody tries opts

/-- The method `Do`, lines 207-209. -/
def Do (c : clientImpl α β) (cRoute : CompiledAPIRoute) (rqBody : Option (RqBody α))
    (rsBody : Option β) (opts : List RequestOpt) : Run α β :=
  retry c cRoute rqBody rsBody 1 opts

/-- The configuration `retry` works with: the options applied to the fresh configuration
that holds the request `rq0` (lines 135-136). -/
def configOf (rq0 : Request) (opts : List RequestOpt) : RequestConfig :=
  RequestConfig.Apply ⟨rq0, Context.TODO, [], 0, rq0⟩ opts

/-- The scenario of the retry bound: a server that answers every exchange with status 429,
and nothing else in the way of any attempt: the request body encodes, the request is well
formed, the context is not done during a delay, every bucket is admitted and released
without error, every check passes. -/
structure Always429 (c : clientImpl α β) (cRoute : CompiledAPIRoute)
    (rqBody : Option (RqBody α)) (opts : List RequestOpt) : Prop where
  encodes : ∃ x, (encodeBody c rqBody).1 = .ok x
  wellFormed : c.NewRequestErr cRoute.Method cRoute.URL = none
  notDone : ∀ rq0 t, (configOf rq0 opts).Delay > 0 → (configOf rq0 opts).Ctx.Done t = none
  admitted : ∀ t, c.WaitBucket t = none
  checksPass : ∀ rq0 t, ∀ check ∈ (configOf rq0 opts).Checks, check t = true
  answers429 : ∀ t rq, ∃ rs, c.HTTPClientDo t rq = .ok rs ∧ rs.StatusCode = 429
  released : ∀ t headers, c.UnlockBucket t (some headers) = none

/-- Follows the spec (section 4.4, the table of the Response Classifier) and the cases of
claim C5: what a call that started with the result target `rsBody` leaves behind when the
outcome of the response `rs`, which is not a 429, is returned directly.

* status 200, 201 or 204: with a target and a body, the target holds what the decoder left
  in it, and the call returns nil, or, when decoding failed, the error made by
  `NewErrorErr` from this response and the decoding error; without a target or without a
  body it returns nil and the target is untouched;
* status 401 or 502: the error made by `NewError` from this response;
* any other status: the error made by `NewErrorAPIErr` from this response and the decoded
  API error, or, when the error body does not decode, the decoding error.

The request and the two byte strings given to an error constructor are left open here. Not
in the spec: a response of the last kind whose `Body` is nil, which the HTTP client never
hands over, makes the decoder panic. -/
def Surfaced (c : clientImpl α β) (rs : Response) (rsBody : Option β) (run : Run α β) : Prop :=
  if rs.StatusCode = 200 ∨ rs.StatusCode = 201 ∨ rs.StatusCode = 204 then
    match rsBody, rs.Body with
    | some target, some body =>
      run.rsBody = some (c.jsonDecode body target).1 ∧
      match (c.jsonDecode body target).2 with
      | none => run.outcome = .returned none
      | some err =>
        ∃ rq a b, run.outcome = .returned (some (.NewErrorErr rq a rs b
          (.Wrap err "error unmarshalling response body")))
    | _, _ => run.outcome = .returned none ∧ run.rsBody = rsBody
  else if rs.StatusCode = 502 ∨ rs.StatusCode = 401 then
    (∃ rq a b, run.outcome = .returned (some (.NewError rq a rs b))) ∧ run.rsBody = rsBody
  else
    run.rsBody = rsBody ∧
    match rs.Body with
    | none => run.outcome = .panicked
    | some body =>
      match c.decodeAPIError body with
      | .ok v => ∃ rq a b, run.outcome = .returned (some (.NewErrorAPIErr rq a rs b v))
      | .error err =>
        run.outcome = .returned (some (.Wrap err "error unmarshalling error response body"))

/-! ## `webhook/webhook_message_update_builder.go` -/

/-- The slice expression `s[:hi]`: a run-time panic (`none`) when `hi` is out of range.
A slice is kept as the list of its elements, so its capacity is its length. -/
def sliceTo {τ : Type} (s : List τ) (hi : Int) : Option (List τ) :=
  if 0 ≤ hi ∧ hi ≤ (s.length : Int) then some (s.take hi.toNat) else none

/-- The slice expression `s[lo:]`: a run-time panic (`none`) when `lo` is out of range. -/
def sliceFrom {τ : Type} (s : List τ) (lo : Int) : Option (List τ) :=
  if 0 ≤ lo ∧ lo ≤ (s.length : Int) then some (s.drop lo.toNat) else none

/-- The struct `MessageUpdateBuilder`, with the three slices the remove methods work on and
the content; `E`, `C` and `F` stand for `discord.Embed`, `core.Component` and `discord.File`. -/
structure MessageUpdateBuilder (E C F : Type) where
  Content : Option String
  Embeds : List E
  Components : List C
  Files : List F

variable {E C F : Type}

/-- The method `RemoveEmbed`, lines 70-75; `none` is a run-time panic. -/
def MessageUpdateBuilder.RemoveEmbed (b : MessageUpdateBuilder E C F) (i : Int) :
    Option (MessageUpdateBuilder E C F) :=
  if (b.Embeds.length : Int) > i then
    match sliceTo b.Embeds i, sliceFrom b.Embeds (i + 1) with
    | some front, some back => some { b with Embeds := front ++ back }
    | _, _ => none
  else
    some b

/-- The method `RemoveActionRow`, lines 104-109; `none` is a run-time panic. -/
def MessageUpdateBuilder.RemoveActionRow (b : MessageUpdateBuilder E C F) (i : Int) :
    Option (MessageUpdateBuilder E C F) :=
  if (b.Components.length : Int) > i then
    match sliceTo b.Components i, sliceFrom b.Components (i + 1) with
    | some front, some back => some { b with Components := front ++ back }
    | _, _ => none
  else
    some b

/-- The method `RemoveFiles`, lines 154-159; `none` is a run-time panic. -/
def MessageUpdateBuilder.RemoveFiles (b : MessageUpdateBuilder E C F) (i : Int) :
    Option (MessageUpdateBuilder E C F) :=
  if (b.Files.length : Int) > i then
    match sliceTo b.Files i, sliceFrom b.Files (i + 1) with
    | some front, some back => some { b with Files := front ++ back }
    | _, _ => none
  else
    some b

/-! ## Concrete inputs -/

/-- A route to post a message. -/
def exampleRoute : CompiledAPIRoute := ⟨"POST", "/api/v8/channels/10/messages"⟩

/-- A rate-limited answer of the server. -/
def tooManyRequests : Response := ⟨429, [("X-Ratelimit-Remaining", "0")], some [123, 125]⟩

/-- A client whose rate limiter admits and releases every bucket, with the given retry
budget and the given HTTP transport. Values to encode and targets are single bytes. -/
def exampleClient (maxRetries : Int) (transport : Int → Request → Except Error Response) :
    clientImpl Nat Nat where
  UserAgent := "DiscordBot (disgo)"
  MaxRetries := maxRetries
  WaitBucket := fun _ => none
  UnlockBucket := fun _ _ => none
  HTTPClientDo := transport
  jsonEncode := fun v => .ok [v]
  urlEncode := fun v => v.map (fun kv => kv.1.length)
  NewRequestErr := fun _ _ => none
  jsonDecode := fun body target =>
    match body with
    | [] => (target, some (.foreign "EOF"))
    | b :: _ => (b, none)
  decodeAPIError := fun body =>
    match body with
    | [] => .error (.foreign "EOF")
    | b :: _ => .ok ⟨b, "error"⟩

/-- A transport that answers every exchange with status 429. -/
def always429 : Int → Request → Except Error Response := fun _ _ => .ok tooManyRequests

/-- A transport that fails before any response arrives. -/
def refused : Int → Request → Except Error Response :=
  fun _ _ => .error (.foreign "dial tcp: connection refused")


/-- An answer of the server with a structured API error. -/
def notFound : Response := ⟨404, [("X-Ratelimit-Remaining", "4")], some [10, 0, 0, 3]⟩

/-- A transport that answers every exchange with status 404. -/
def always404 : Int → Request → Except Error Response := fun _ _ => .ok notFound

/-- The request `exampleClient` builds for `exampleRoute` without a body. -/
def exampleRequest : Request :=
  ⟨"POST", "/api/v8/channels/10/messages", [("User-Agent", "DiscordBot (disgo)")], []⟩

/-- An answer of the server with status 204 and no content: the body the HTTP client hands
over for it is not nil, it is an empty reader. -/
def noContent : Response := ⟨204, [("X-Ratelimit-Remaining", "3")], some []⟩

/-- A transport that answers every exchange with status 204 and no body. -/
def always204 : Int → Request → Except Error Response := fun _ _ => .ok noContent

/-- An option that sets a delay of five and a context that is cancelled during the delay. -/
def cancelledDelay : RequestOpt :=
  fun config =>
    { config with Delay := 5, Ctx := ⟨fun _ => some (.foreign "context canceled")⟩ }

/-- A client whose rate limiter is cancelled while it waits for the bucket. -/
def cancelledWait : clientImpl Nat Nat :=
  { exampleClient 3 always204 with WaitBucket := fun _ => some (.foreign "context canceled") }

/-- The request `exampleClient` builds for `exampleRoute` from a multipart buffer. -/
def multipartRequest : Request :=
  ⟨"POST", "/api/v8/channels/10/messages",
    [("User-Agent", "DiscordBot (disgo)"), ("Content-Type", "multipart/form-data; boundary=x")],
    [45, 45, 120]⟩

/-- A builder with three embeds, two components and one file. -/
def exampleBuilder : MessageUpdateBuilder String Nat String :=
  ⟨some "hello", ["a", "b", "c"], [10, 20], ["f.png"]⟩

/-- The request `exampleClient` builds for `exampleRoute` from the JSON value `7`. -/
def jsonRequest : Request :=
  ⟨"POST", "/api/v8/channels/10/messages",
    [("User-Agent", "DiscordBot (disgo)"), ("Content-Type", "application/json")], [7]⟩

/-- An answer of the server with status 401 and a body. -/
def unauthorized : Response := ⟨401, [("X-Ratelimit-Remaining", "4")], some [52, 48, 49]⟩

/-- A transport that answers every exchange with status 401. -/
def always401 : Int → Request → Except Error Response := fun _ _ => .ok unauthorized

/-- An answer of the server with status 200 and a body that is present but empty. -/
def emptyOK : Response := ⟨200, [("X-Ratelimit-Remaining", "4")], some []⟩

/-- A transport that answers every exchange with status 200 and an empty body. -/
def always200 : Int → Request → Except Error Response := fun _ _ => .ok emptyOK

/-- An answer of the server with status 200 and a body that decodes to `5`. -/
def okFive : Response := ⟨200, [("X-Ratelimit-Remaining", "oops")], some [5]⟩

/-- A client whose server answers every exchange with `okFive` and whose rate limiter
returns an error when it is given the headers of a response. -/
def refusingLimiter : clientImpl Nat Nat :=
  { exampleClient 3 (fun _ _ => .ok okFive) with
    UnlockBucket := fun _ headers =>
      headers.map (fun _ => Error.foreign "invalid value for remaining") }

/-- An option that sets three checks, of which the second fails. -/
def secondCheckFails : RequestOpt :=
  fun config => { config with Checks := [fun _ => true, fun _ => false, fun _ => true] }

/-! ## Events: computation rules -/

@[simp] theorem Event.tries_delay (t : Int) (d : Option Error) : (Event.delay t d).tries = t := rfl
@[simp] theorem Event.tries_waitBucket (t : Int) (d : Option Error) :
    (Event.waitBucket t d).tries = t := rfl
@[simp] theorem Event.tries_check (t : Int) (i : Nat) (r : Bool) :
    (Event.check t i r).tries = t := rfl
@[simp] theorem Event.tries_unlockBucket (t : Int) (h : Option Header) (d : Option Error) :
    (Event.unlockBucket t h d).tries = t := rfl
@[simp] theorem Event.tries_httpDo (t : Int) (rq : Request) (r : Except Error Response) :
    (Event.httpDo t rq r).tries = t := rfl
@[simp] theorem Event.tries_decode (t : Int) (b : Bytes) : (Event.decode t b).tries = t := rfl

theorem runChecks_mem (t : Int) (cs : List Check) (i : Nat) :
    ∀ e ∈ (runChecks t cs i).1, e.isCheck = true ∧ e.tries = t := by
  induction cs generalizing i with
  | nil => simp [runChecks]
  | cons ck rest ih =>
    intro e he
    simp only [runChecks] at he
    split at he
    · simp at he; subst he; simp [Event.isCheck]
    · simp at he
      rcases he with he | he
      · subst he; simp [Event.isCheck]
      · exact ih (i + 1) e he

theorem waitDelay_mem (config : RequestConfig) (t : Int) :
    ∀ e ∈ (waitDelay config t).1, e.isDelay = true ∧ e.tries = t := by
  intro e he
  unfold waitDelay at he
  split at he
  · simp at he; subst he; simp [Event.isDelay]
  · simp at he

/-- Every event of a call of `retry` carries the `tries` of that call or a later one. -/
theorem retryFuel_tries_le (c : clientImpl α β) (cRoute : CompiledAPIRoute) (fuel : Nat) :
    ∀ (rqBody : Option (RqBody α)) (rsBody : Option β) (tries : Int) (opts : List RequestOpt),
      ∀ e ∈ (retryFuel c cRoute fuel rqBody rsBody tries opts).events, tries ≤ e.tries := by
  induction fuel with
  | zero => intro _ _ _ _ e he; simp [retryFuel] at he
  | succ fuel ih =>
    intro rqBody rsBody tries opts
    have hc : ∀ cs i, ∀ e ∈ (runChecks tries cs i).1, tries ≤ e.tries :=
      fun cs i e he => le_of_eq (runChecks_mem tries cs i e he).2.symm
    have hd : ∀ cfg, ∀ e ∈ (waitDelay cfg tries).1, tries ≤ e.tries :=
      fun cfg e he => le_of_eq (waitDelay_mem cfg tries e he).2.symm
    have ih1 : ∀ b r, ∀ e ∈ (retryFuel c cRoute fuel b r (tries + 1) opts).events,
        tries ≤ e.tries := fun b r e he => by have := ih b r (tries + 1) opts e he; omega
    simp only [retryFuel]
    repeat' split
    all_goals
      simp only [List.forall_mem_append, List.forall_mem_cons, List.forall_mem_singleton,
        List.not_mem_nil, false_implies, implies_true, Event.tries_waitBucket,
        Event.tries_unlockBucket, Event.tries_httpDo, Event.tries_decode, le_refl, true_and,
        and_true]
      try ((repeat' (refine And.intro ?_ ?_)) <;>
        first | exact hd _ | exact hc _ _ | exact ih1 _ _)

/-- Fuel beyond `MaxRetries - tries + 1` changes nothing: the recursion of `retry` is never
deeper than that. -/
theorem retryFuel_enough (c : clientImpl α β) (cRoute : CompiledAPIRoute) (fuel : Nat) :
    ∀ (rqBody : Option (RqBody α)) (rsBody : Option β) (tries : Int) (opts : List RequestOpt),
      (c.MaxRetries - tries).toNat + 1 ≤ fuel →
      retryFuel c cRoute fuel rqBody rsBody tries opts =
        retryFuel c cRoute ((c.MaxRetries - tries).toNat + 1) rqBody rsBody tries opts := by
  induction fuel with
  | zero => intro _ _ _ _ h; omega
  | succ fuel ih =>
    intro rqBody rsBody tries opts h
    simp only [retryFuel]
    repeat' split
    all_goals first
      | rfl
      | skip
    rename_i hlt
    have h1 : (c.MaxRetries - tries).toNat = (c.MaxRetries - (tries + 1)).toNat + 1 := by omega
    rw [ih _ _ (tries + 1) opts (by omega), ← h1]

/-- The method `retry` ends: the fuel of the embedding is never used up. -/
theorem retryFuel_returns (c : clientImpl α β) (cRoute : CompiledAPIRoute) (fuel : Nat) :
    ∀ (rqBody : Option (RqBody α)) (rsBody : Option β) (tries : Int) (opts : List RequestOpt),
      (c.MaxRetries - tries).toNat + 1 ≤ fuel →
      (retryFuel c cRoute fuel rqBody rsBody tries opts).outcome ≠ .outOfFuel := by
  induction fuel with
  | zero => intro _ _ _ _ h; omega
  | succ fuel ih =>
    intro rqBody rsBody tries opts h
    simp only [retryFuel]
    repeat' split
    all_goals first
      | (simp; done)
      | skip
    rename_i hlt
    exact ih _ _ (tries + 1) opts (by omega)

theorem retry_returns (c : clientImpl α β) (cRoute : CompiledAPIRoute)
    (rqBody : Option (RqBody α)) (rsBody : Option β) (tries : Int) (opts : List RequestOpt) :
    (retry c cRoute rqBody rsBody tries opts).outcome ≠ .outOfFuel :=
  retryFuel_returns c cRoute _ rqBody rsBody tries opts (le_refl _)

/-! ## The pre-send steps -/

theorem waitDelay_snd_none (config : RequestConfig) (t : Int)
    (h : config.Delay > 0 → config.Ctx.Done t = none) : (waitDelay config t).2 = none := by
  unfold waitDelay
  split
  · simpa using h (by assumption)
  · rfl

theorem runChecks_snd_true (t : Int) (cs : List Check) (i : Nat)
    (h : ∀ check ∈ cs, check t = true) : (runChecks t cs i).2 = true := by
  induction cs generalizing i with
  | nil => rfl
  | cons ck rest ih =>
    have h1 : ck t = true := h ck (List.mem_cons_self _ _)
    simp only [runChecks, h1, Bool.not_true, Bool.false_eq_true, if_false]
    exact ih (i + 1) (fun check hc => h check (List.mem_cons_of_mem _ hc))

@[simp] theorem httpCount_nil : httpCount [] = 0 := rfl

@[simp] theorem httpCount_append (a b : List Event) :
    httpCount (a ++ b) = httpCount a + httpCount b := by
  simp [httpCount]

@[simp] theorem httpCount_cons (e : Event) (es : List Event) :
    httpCount (e :: es) = httpCount es + (if e.isHTTPDo = true then 1 else 0) := by
  simp [httpCount, List.countP_cons]

@[simp] theorem httpCount_runChecks (t : Int) (cs : List Check) (i : Nat) :
    httpCount (runChecks t cs i).1 = 0 := by
  simp only [httpCount, List.countP_eq_zero]
  intro e he
  have := (runChecks_mem t cs i e he).1
  cases e <;> simp_all [Event.isCheck, Event.isHTTPDo]

@[simp] theorem httpCount_waitDelay (config : RequestConfig) (t : Int) :
    httpCount (waitDelay config t).1 = 0 := by
  simp only [httpCount, List.countP_eq_zero]
  intro e he
  have := (waitDelay_mem config t e he).1
  cases e <;> simp_all [Event.isDelay, Event.isHTTPDo]

/-- The body left behind by `encodeBody` encodes whenever the body it started from does. -/
theorem encodeBody_again (c : clientImpl α β) (rqBody : Option (RqBody α))
    (h : ∃ x, (encodeBody c rqBody).1 = .ok x) :
    ∃ x, (encodeBody c (encodeBody c rqBody).2).1 = .ok x := by
  rcases rqBody with _ | (_ | _ | v)
  · exact ⟨_, rfl⟩
  · exact ⟨_, rfl⟩
  · exact ⟨_, rfl⟩
  · obtain ⟨x, hx⟩ := h
    simp only [encodeBody] at hx ⊢
    cases hv : c.jsonEncode v with
    | error err => simp [hv] at hx
    | ok buffer => simp [hv]

theorem buildRequest_snd (c : clientImpl α β) (cRoute : CompiledAPIRoute)
    (rqBody : Option (RqBody α)) :
    (buildRequest c cRoute rqBody).2 = (encodeBody c rqBody).2 := by
  unfold buildRequest
  repeat' split
  all_goals simp_all

theorem buildRequest_ok (c : clientImpl α β) (cRoute : CompiledAPIRoute)
    (rqBody : Option (RqBody α)) (h : ∃ x, (encodeBody c rqBody).1 = .ok x)
    (hw : c.NewRequestErr cRoute.Method cRoute.URL = none) :
    ∃ rq0 raw, buildRequest c cRoute rqBody = (.ok (rq0, raw), (encodeBody c rqBody).2) := by
  obtain ⟨⟨raw, ct⟩, hx⟩ := h
  have he : encodeBody c rqBody = (.ok (raw, ct), (encodeBody c rqBody).2) := by
    rw [← hx]
  unfold buildRequest
  rw [he]
  simp only [newRequest, hw]
  by_cases hct : (ct != "") = true <;> simp [hct]

theorem Always429.next {c : clientImpl α β} {cRoute : CompiledAPIRoute}
    {rqBody : Option (RqBody α)} {opts : List RequestOpt} (h : Always429 c cRoute rqBody opts) :
    Always429 c cRoute (encodeBody c rqBody).2 opts :=
  { h with encodes := encodeBody_again c rqBody h.encodes }

theorem retryFuel_always429 (c : clientImpl α β) (cRoute : CompiledAPIRoute)
    (opts : List RequestOpt) (fuel : Nat) :
    ∀ (rqBody : Option (RqBody α)) (rsBody : Option β) (tries : Int),
      Always429 c cRoute rqBody opts → (c.MaxRetries - tries).toNat + 1 = fuel →
      httpCount (retryFuel c cRoute fuel rqBody rsBody tries opts).events = fuel ∧
      ∃ rq raw rs body,
        (retryFuel c cRoute fuel rqBody rsBody tries opts).outcome
          = .returned (some (.NewError rq raw rs body)) ∧ rs.StatusCode = 429 := by
  induction fuel with
  | zero => intro _ _ _ _ h; omega
  | succ fuel ih =>
    intro rqBody rsBody tries h hf
    obtain ⟨rq0, raw, hb⟩ := buildRequest_ok c cRoute rqBody h.encodes h.wellFormed
    have hd := waitDelay_snd_none _ tries (h.notDone rq0 tries)
    have hc := runChecks_snd_true tries _ 0 (h.checksPass rq0 tries)
    obtain ⟨rs, hrs, h429⟩ := h.answers429 tries (configOf rq0 opts).Request
    unfold configOf at hd hc hrs
    have hs1 : ¬ (rs.StatusCode = 200 ∨ rs.StatusCode = 201 ∨ rs.StatusCode = 204) := by
      rw [h429]; decide
    have hs2 : ¬ (rs.StatusCode = 502 ∨ rs.StatusCode = 401) := by rw [h429]; decide
    by_cases hle : tries ≥ c.MaxRetries
    · have hz : fuel = 0 := by omega
      subst hz
      simp only [retryFuel, hb, hd, h.admitted tries, hc, hrs, h.released tries rs.Header,
        hs1, hs2, h429, hle, if_true, if_false, Bool.true_eq_false]
      exact ⟨by simp [Event.isHTTPDo], _, _, _, _, rfl, h429⟩
    · obtain ⟨ih1, rq, raw1, rs1, body, ho, hs⟩ :=
        ih (encodeBody c rqBody).2 rsBody (tries + 1) h.next (by omega)
      simp only [retryFuel, hb, hd, h.admitted tries, hc, hrs, h.released tries rs.Header,
        hs1, hs2, h429, hle, if_true, if_false, Bool.true_eq_false]
      exact ⟨by simp [Event.isHTTPDo, ih1], rq, raw1, rs1, body, ho, hs⟩

/-! ## The retry bound -/

theorem always429_example (n : Int) (rqBody : Option (RqBody Nat)) :
    Always429 (exampleClient n always429) exampleRoute rqBody [] where
  encodes := by
    rcases rqBody with _ | (_ | _ | v) <;> exact ⟨_, rfl⟩
  wellFormed := rfl
  notDone := by intro rq0 t h; rfl
  admitted := fun _ => rfl
  checksPass := by intro rq0 t check h; simp [configOf, RequestConfig.Apply] at h
  answers429 := fun _ _ => ⟨tooManyRequests, rfl, rfl⟩
  released := fun _ _ => rfl

/-- C1, as amended: with `MaxRetries = N` and a server that answers every exchange with
status 429, one call of `Do` performs exactly `max N 1` HTTP exchanges (`N` of them for
`N ≥ 1`, the single first one for `N ≤ 0`, so that with `N = 0` nothing is retried) and then
returns an error built by `NewError` from a response with status 429. -/
theorem retry_bound (c : clientImpl α β) (cRoute : CompiledAPIRoute)
    (rqBody : Option (RqBody α)) (rsBody : Option β) (opts : List RequestOpt)
    (h : Always429 c cRoute rqBody opts) :
    httpCount (Do c cRoute rqBody rsBody opts).events = (max c.MaxRetries 1).toNat ∧
    ∃ rq raw rs body,
      (Do c cRoute rqBody rsBody opts).outcome = .returned (some (.NewError rq raw rs body)) ∧
      rs.StatusCode = 429 := by
  have hm : (c.MaxRetries - 1).toNat + 1 = (max c.MaxRetries 1).toNat := by
    rcases le_total c.MaxRetries 1 with h1 | h1
    · rw [max_eq_right h1]; omega
    · rw [max_eq_left h1]; omega
  have := retryFuel_always429 c cRoute opts _ rqBody rsBody 1 h rfl
  rw [← hm]
  exact this

/-- C1, as amended, at `MaxRetries = 3`: three exchanges, then the rate-limit error. -/
theorem retry_bound_witness :
    Always429 (exampleClient 3 always429) exampleRoute none [] ∧
    (httpCount (Do (exampleClient 3 always429) exampleRoute none (none : Option Nat) []).events
        = (max (exampleClient 3 always429).MaxRetries 1).toNat ∧
      ∃ rq raw rs body,
        (Do (exampleClient 3 always429) exampleRoute none (none : Option Nat) []).outcome
          = .returned (some (.NewError rq raw rs body)) ∧ rs.StatusCode = 429) :=
  ⟨always429_example 3 none, retry_bound _ _ _ _ _ (always429_example 3 none)⟩

/-- C1 as stated fails at `MaxRetries = 0`: the server answers every exchange with 429,
and `Do` performs one exchange, not zero. -/
theorem retry_bound_zero_exchanges :
    Always429 (exampleClient 0 always429) exampleRoute none [] ∧
    (0 : Int) ≤ (exampleClient 0 always429).MaxRetries ∧
    httpCount (Do (exampleClient 0 always429) exampleRoute none (none : Option Nat) []).events = 1 ∧
    ¬ ((httpCount (Do (exampleClient 0 always429) exampleRoute none (none : Option Nat)
        []).events : Int) = (exampleClient 0 always429).MaxRetries) :=
  ⟨always429_example 0 none, by decide, by decide, by decide⟩

/-! ## A transport failure -/

/-- C2, the code at a failing transport: the bucket is admitted, the exchange fails, and
`Do` returns the wrapped transport error without any call of `UnlockBucket`. -/
theorem transport_failure_keeps_bucket :
    (Do (exampleClient 3 refused) exampleRoute none (none : Option Nat) []).events =
      [.waitBucket 1 none,
        .httpDo 1 ⟨"POST", "/api/v8/channels/10/messages",
          [("User-Agent", "DiscordBot (disgo)")], []⟩
          (.error (.foreign "dial tcp: connection refused"))] ∧
    (Do (exampleClient 3 refused) exampleRoute none (none : Option Nat) []).outcome =
      .returned (some (.Wrap (.foreign "dial tcp: connection refused")
        "error doing request in rest client")) ∧
    unlockArgs (Do (exampleClient 3 refused) exampleRoute none (none : Option Nat) []).events
      = [] := by
  decide

/-! ## The loop over the checks -/

/-- The checks evaluated when one fails: the checks before the first failing one, each
returning true, and then the failing one. -/
theorem runChecks_false (t : Int) (cs : List Check) (k : Nat)
    (h : (runChecks t cs k).2 = false) :
    ∃ n, (runChecks t cs k).1 =
      (List.range n).map (fun j => Event.check t (k + j) true) ++ [.check t (k + n) false] := by
  induction cs generalizing k with
  | nil => simp [runChecks] at h
  | cons ck rest ih =>
    simp only [runChecks] at h ⊢
    split
    · exact ⟨0, by simp⟩
    · rename_i hck
      simp only [hck, if_false] at h
      obtain ⟨n, hn⟩ := ih (k + 1) h
      refine ⟨n + 1, ?_⟩
      simp only [hn, List.range_succ_eq_map, List.map_cons, List.map_map, Nat.add_zero,
        List.cons_append, List.cons.injEq, true_and]
      have e1 : ∀ j, k + 1 + j = k + (j + 1) := fun j => by omega
      simp only [Function.comp_def, Nat.succ_eq_add_one, e1]

/-- The checks evaluated when all pass: every one of them returned true. -/
theorem runChecks_true (t : Int) (cs : List Check) (k : Nat)
    (h : (runChecks t cs k).2 = true) :
    ∀ e ∈ (runChecks t cs k).1, ∃ j, e = .check t j true := by
  induction cs generalizing k with
  | nil => simp [runChecks]
  | cons ck rest ih =>
    simp only [runChecks] at h ⊢
    split
    · rename_i hck
      simp [hck] at h
    · rename_i hck
      simp only [hck, if_false] at h
      intro e he
      simp only [List.mem_cons] at he
      rcases he with he | he
      · exact ⟨k, he⟩
      · exact ih (k + 1) h e he

/-! ## Where an event can come from -/

@[simp] theorem mem_waitDelay (e : Event) (config : RequestConfig) (t : Int) :
    e ∈ (waitDelay config t).1 ↔ config.Delay > 0 ∧ e = .delay t (config.Ctx.Done t) := by
  unfold waitDelay
  split <;> simp_all

@[simp] theorem delay_not_mem_runChecks (t u : Int) (cs : List Check) (i : Nat)
    (d : Option Error) : Event.delay u d ∉ (runChecks t cs i).1 :=
  fun h => by simpa [Event.isCheck] using (runChecks_mem t cs i _ h).1

@[simp] theorem waitBucket_not_mem_runChecks (t u : Int) (cs : List Check) (i : Nat)
    (d : Option Error) : Event.waitBucket u d ∉ (runChecks t cs i).1 :=
  fun h => by simpa [Event.isCheck] using (runChecks_mem t cs i _ h).1

@[simp] theorem unlockBucket_not_mem_runChecks (t u : Int) (cs : List Check) (i : Nat)
    (hd : Option Header) (d : Option Error) :
    Event.unlockBucket u hd d ∉ (runChecks t cs i).1 :=
  fun h => by simpa [Event.isCheck] using (runChecks_mem t cs i _ h).1

@[simp] theorem httpDo_not_mem_runChecks (t u : Int) (cs : List Check) (i : Nat)
    (rq : Request) (r : Except Error Response) : Event.httpDo u rq r ∉ (runChecks t cs i).1 :=
  fun h => by simpa [Event.isCheck] using (runChecks_mem t cs i _ h).1

@[simp] theorem decode_not_mem_runChecks (t u : Int) (cs : List Check) (i : Nat)
    (b : Bytes) : Event.decode u b ∉ (runChecks t cs i).1 :=
  fun h => by simpa [Event.isCheck] using (runChecks_mem t cs i _ h).1

/-- An event of the attempt `tries` is not an event of the retry that follows it. -/
@[simp] theorem not_mem_retryFuel_succ (c : clientImpl α β) (cRoute : CompiledAPIRoute)
    (fuel : Nat) (rqBody : Option (RqBody α)) (rsBody : Option β) (tries : Int)
    (opts : List RequestOpt) (e : Event) (h : e.tries ≤ tries) :
    e ∉ (retryFuel c cRoute fuel rqBody rsBody (tries + 1) opts).events :=
  fun hm => by
    have := retryFuel_tries_le c cRoute fuel rqBody rsBody (tries + 1) opts e hm
    omega

@[simp] theorem unlockArgs_append (a b : List Event) :
    unlockArgs (a ++ b) = unlockArgs a ++ unlockArgs b := by
  induction a with
  | nil => rfl
  | cons e es ih => cases e <;> simp [unlockArgs, ih]

@[simp] theorem unlockArgs_runChecks (t : Int) (cs : List Check) (i : Nat) :
    unlockArgs (runChecks t cs i).1 = [] := by
  induction cs generalizing i with
  | nil => rfl
  | cons ck rest ih =>
    simp only [runChecks]
    split
    · rfl
    · simpa [unlockArgs] using ih (i + 1)

@[simp] theorem unlockArgs_waitDelay (config : RequestConfig) (t : Int) :
    unlockArgs (waitDelay config t).1 = [] := by
  unfold waitDelay
  split <;> rfl

theorem check_false_mem_runChecks (t u : Int) (cs : List Check) (i j : Nat)
    (h : Event.check u j false ∈ (runChecks t cs i).1) : (runChecks t cs i).2 = false := by
  by_contra hne
  obtain ⟨k, hk⟩ := runChecks_true t cs i (by simpa using hne) _ h
  simp at hk

@[simp] theorem httpCount_map_check (t : Int) (l : List Nat) :
    httpCount (l.map (fun j => Event.check t j true)) = 0 := by
  induction l with
  | nil => rfl
  | cons a l ih => simp [ih, Event.isHTTPDo]

@[simp] theorem unlockArgs_map_check (t : Int) (l : List Nat) :
    unlockArgs (l.map (fun j => Event.check t j true)) = [] := by
  induction l with
  | nil => rfl
  | cons a l ih => simpa [unlockArgs] using ih

/-! ## A failed pre-send check -/

/-- The loop over a list of checks one of which returns false: it evaluates the checks
before the first failing one, each returning true, then the failing one, and stops. -/
theorem runChecks_first_false (t : Int) (cs : List Check) (k : Nat)
    (h : ∃ check ∈ cs, check t = false) :
    ∃ i failing, cs[i]? = some failing ∧ failing t = false ∧
      (∀ j check, j < i → cs[j]? = some check → check t = true) ∧
      runChecks t cs k =
        ((List.range i).map (fun j => Event.check t (k + j) true) ++ [.check t (k + i) false],
          false) := by
  induction cs generalizing k with
  | nil => simp at h
  | cons ck rest ih =>
    by_cases hck : ck t = false
    · refine ⟨0, ck, by simp, hck, fun j _ hj => absurd hj (Nat.not_lt_zero j), ?_⟩
      simp [runChecks, hck]
    · have hck1 : ck t = true := by simpa using hck
      obtain ⟨check, hmem, hfalse⟩ := h
      have hrest : ∃ check ∈ rest, check t = false := by
        rcases List.mem_cons.1 hmem with hm | hm
        · subst hm; exact absurd hfalse hck
        · exact ⟨check, hm, hfalse⟩
      obtain ⟨i, failing, h1, h2, h3, h4⟩ := ih (k + 1) hrest
      refine ⟨i + 1, failing, by simpa using h1, h2, ?_, ?_⟩
      · intro j check hj hget
        cases j with
        | zero =>
          simp only [List.getElem?_cons_zero, Option.some.injEq] at hget
          subst hget
          exact hck1
        | succ j =>
          simp only [List.getElem?_cons_succ] at hget
          exact h3 j check (by omega) hget
      · have e1 : ∀ j, k + 1 + j = k + (j + 1) := fun j => by omega
        simp only [runChecks, hck1, Bool.not_true, Bool.false_eq_true, if_false, h4,
          List.range_succ_eq_map, List.map_cons, List.map_map, Nat.add_zero,
          List.cons_append, Function.comp_def, Nat.succ_eq_add_one, e1]

/-- C3: when the attempt reaches the checks (the request is built, the context is not done
during a delay, the bucket is admitted) and the list of checks holds at least one check that
returns false, `retry` returns `discord.ErrCheckFailed` and performs no HTTP exchange; with
`i` the first check of the list that returns false, its calls are, after the wait of a
positive delay, `WaitBucket`, the checks number `0` to `i - 1` (each true), the check
number `i` (false) and one `UnlockBucket(cRoute, nil)`: no check after number `i` is
evaluated, and the only call of `UnlockBucket` has nil headers. -/
theorem failed_check (c : clientImpl α β) (cRoute : CompiledAPIRoute)
    (rqBody : Option (RqBody α)) (rsBody : Option β) (tries : Int) (opts : List RequestOpt)
    (rq0 : Request) (raw : Bytes)
    (hb : (buildRequest c cRoute rqBody).1 = .ok (rq0, raw))
    (hd : (configOf rq0 opts).Delay > 0 → (configOf rq0 opts).Ctx.Done tries = none)
    (hw : c.WaitBucket tries = none)
    (hc : ∃ check ∈ (configOf rq0 opts).Checks, check tries = false) :
    (retry c cRoute rqBody rsBody tries opts).outcome = .returned (some .ErrCheckFailed) ∧
    httpCount (retry c cRoute rqBody rsBody tries opts).events = 0 ∧
    unlockArgs (retry c cRoute rqBody rsBody tries opts).events = [none] ∧
    ∃ i failing, (configOf rq0 opts).Checks[i]? = some failing ∧ failing tries = false ∧
      (∀ j check, j < i → (configOf rq0 opts).Checks[j]? = some check → check tries = true) ∧
      (retry c cRoute rqBody rsBody tries opts).events =
        (if (configOf rq0 opts).Delay > 0 then [Event.delay tries none] else []) ++
          .waitBucket tries none ::
            ((List.range i).map (fun j => Event.check tries j true) ++
              [.check tries i false, .unlockBucket tries none (c.UnlockBucket tries none)]) := by
  obtain ⟨i, failing, h1, h2, h3, h4⟩ := runChecks_first_false tries _ 0 hc
  rcases hbr : buildRequest c cRoute rqBody with ⟨res, st⟩
  rw [hbr] at hb
  simp only at hb
  subst hb
  have hdelay := waitDelay_snd_none _ tries hd
  have hdel1 : (waitDelay (configOf rq0 opts) tries).1 =
      (if (configOf rq0 opts).Delay > 0 then [Event.delay tries none] else []) := by
    unfold waitDelay
    split
    · rename_i hpos
      simp [hd hpos]
    · rfl
  unfold configOf at hdelay h4 hdel1 h1 h3 ⊢
  simp only [retry, retryFuel, hbr, hdelay, hw, h4, hdel1, Nat.zero_add, if_true]
  refine ⟨trivial, ?_, ?_, i, failing, h1, h2, h3, ?_⟩
  · split <;> simp [Event.isHTTPDo]
  · split <;> simp [unlockArgs]
  · simp

/-- C3 at three checks of which the second fails: the third is not evaluated. -/
theorem failed_check_witness :
    (buildRequest (exampleClient 3 always429) exampleRoute none).1
      = .ok (exampleRequest, []) ∧
    (∃ check ∈ (configOf exampleRequest [secondCheckFails]).Checks, check 1 = false) ∧
    (retry (exampleClient 3 always429) exampleRoute none (none : Option Nat) 1
        [secondCheckFails]).events =
      [.waitBucket 1 none, .check 1 0 true, .check 1 1 false, .unlockBucket 1 none none] ∧
    (retry (exampleClient 3 always429) exampleRoute none (none : Option Nat) 1
        [secondCheckFails]).outcome = .returned (some .ErrCheckFailed) ∧
    httpCount (retry (exampleClient 3 always429) exampleRoute none (none : Option Nat) 1
        [secondCheckFails]).events = 0 ∧
    unlockArgs (retry (exampleClient 3 always429) exampleRoute none (none : Option Nat) 1
        [secondCheckFails]).events = [none] :=
  have hb : (buildRequest (exampleClient 3 always429) exampleRoute none).1
      = .ok (exampleRequest, []) := by decide
  have hc : ∃ check ∈ (configOf exampleRequest [secondCheckFails]).Checks,
      check 1 = false := ⟨fun _ => false, by simp [configOf, RequestConfig.Apply,
        secondCheckFails], rfl⟩
  have hd : (configOf exampleRequest [secondCheckFails]).Delay > 0 →
      (configOf exampleRequest [secondCheckFails]).Ctx.Done 1 = none := fun _ => rfl
  ⟨hb, hc, by decide,
    (failed_check (exampleClient 3 always429) exampleRoute none none 1 [secondCheckFails]
      exampleRequest [] hb hd rfl hc).1,
    (failed_check (exampleClient 3 always429) exampleRoute none none 1 [secondCheckFails]
      exampleRequest [] hb hd rfl hc).2.1,
    (failed_check (exampleClient 3 always429) exampleRoute none none 1 [secondCheckFails]
      exampleRequest [] hb hd rfl hc).2.2.1⟩

/-! ## Bucket learning on every response -/

theorem attempt_shape (d ck post : List Event) (t : Int) (x u : Event)
    (hd : ∀ e ∈ d, e.isDelay = true) (hck : ∀ e ∈ ck, e.isCheck = true)
    (hpost : ∀ e ∈ post, (e.isDecode = true ∧ e.tries = t) ∨ t < e.tries) :
    ∃ pre post1,
      d ++ .waitBucket t none :: ck ++ [x] ++ [u] ++ post = pre ++ x :: u :: post1 ∧
      (∀ e ∈ pre, e.isDelay = true ∨ e.isWaitBucket = true ∨ e.isCheck = true) ∧
      (∀ e ∈ post1, (e.isDecode = true ∧ e.tries = t) ∨ t < e.tries) := by
  refine ⟨d ++ .waitBucket t none :: ck, post, by simp, ?_, hpost⟩
  intro e he
  simp only [List.mem_append, List.mem_cons] at he
  rcases he with he | he | he
  · exact Or.inl (hd e he)
  · subst he; exact Or.inr (Or.inl rfl)
  · exact Or.inr (Or.inr (hck e he))

theorem attempt_shape_last (d ck : List Event) (t : Int) (x u : Event)
    (hd : ∀ e ∈ d, e.isDelay = true) (hck : ∀ e ∈ ck, e.isCheck = true) :
    ∃ pre post1,
      d ++ .waitBucket t none :: ck ++ [x] ++ [u] = pre ++ x :: u :: post1 ∧
      (∀ e ∈ pre, e.isDelay = true ∨ e.isWaitBucket = true ∨ e.isCheck = true) ∧
      (∀ e ∈ post1, (e.isDecode = true ∧ e.tries = t) ∨ t < e.tries) := by
  have := attempt_shape d ck [] t x u hd hck (by simp)
  simpa using this

/-- C4: when the transport returns a response in the attempt `tries`, whatever its status
and body, the call of `Do` is followed at once by `UnlockBucket` with the headers of that
response. Before the two there are only the pre-send delay, `WaitBucket` and the checks;
after them only the decoding of the body of this response and the calls of later attempts:
so `UnlockBucket` is called exactly once for the attempt, before the status is looked at. -/
theorem unlock_on_every_response (c : clientImpl α β) (cRoute : CompiledAPIRoute)
    (rqBody : Option (RqBody α)) (rsBody : Option β) (tries : Int) (opts : List RequestOpt)
    (rq : Request) (rs : Response)
    (h : Event.httpDo tries rq (.ok rs) ∈ (retry c cRoute rqBody rsBody tries opts).events) :
    ∃ pre post,
      (retry c cRoute rqBody rsBody tries opts).events =
        pre ++ .httpDo tries rq (.ok rs) ::
          .unlockBucket tries (some rs.Header) (c.UnlockBucket tries (some rs.Header)) :: post ∧
      (∀ e ∈ pre, e.isDelay = true ∨ e.isWaitBucket = true ∨ e.isCheck = true) ∧
      (∀ e ∈ post, (e.isDecode = true ∧ e.tries = tries) ∨ tries < e.tries) := by
  unfold retry at h ⊢
  revert h
  simp only [retryFuel]
  repeat' split
  all_goals intro h
  all_goals first
    | (simp at h; done)
    | (simp_all; done)
    | skip
  all_goals
    simp at h
    obtain ⟨h1, h2⟩ := h
    subst h1
    simp only [← h2, Except.ok.injEq] at *
    subst_vars
    simp only [*]
    first
    | exact attempt_shape_last _ _ _ _ _ (fun e he => (waitDelay_mem _ _ e he).1)
        (fun e he => (runChecks_mem _ _ _ e he).1)
    | (refine attempt_shape _ _ _ _ _ _ (fun e he => (waitDelay_mem _ _ e he).1)
        (fun e he => (runChecks_mem _ _ _ e he).1) ?_
       intro e he
       first
       | (simp only [List.mem_singleton] at he; subst he; exact Or.inl ⟨rfl, rfl⟩)
       | (right
          have := retryFuel_tries_le _ _ _ _ _ _ _ e he
          omega))

/-- C4 at a response with status 404: `UnlockBucket` receives its headers. -/
theorem unlock_on_every_response_witness :
    Event.httpDo 1 exampleRequest (.ok notFound) ∈
      (retry (exampleClient 3 always404) exampleRoute none (none : Option Nat) 1 []).events ∧
    ∃ pre post,
      (retry (exampleClient 3 always404) exampleRoute none (none : Option Nat) 1 []).events =
        pre ++ .httpDo 1 exampleRequest (.ok notFound) ::
          .unlockBucket 1 (some notFound.Header)
            ((exampleClient 3 always404).UnlockBucket 1 (some notFound.Header)) :: post ∧
      (∀ e ∈ pre, e.isDelay = true ∨ e.isWaitBucket = true ∨ e.isCheck = true) ∧
      (∀ e ∈ post, (e.isDecode = true ∧ e.tries = 1) ∨ 1 < e.tries) :=
  ⟨by decide, unlock_on_every_response _ _ _ _ _ _ _ _ (by decide)⟩

/-! ## Only a 429 is retried -/

theorem encodeBody_maxRetries (c : clientImpl α β) (N : Int) (rqBody : Option (RqBody α)) :
    encodeBody { c with MaxRetries := N } rqBody = encodeBody c rqBody := by
  rcases rqBody with _ | (_ | _ | v) <;> rfl

theorem buildRequest_maxRetries (c : clientImpl α β) (N : Int) (cRoute : CompiledAPIRoute)
    (rqBody : Option (RqBody α)) :
    buildRequest { c with MaxRetries := N } cRoute rqBody = buildRequest c cRoute rqBody := by
  unfold buildRequest
  rw [encodeBody_maxRetries]
  rfl

/-- An attempt whose exchange does not end in a 429 response is the last one, whatever
the retry budget and the fuel. -/
theorem retryFuel_last_attempt (c : clientImpl α β) (cRoute : CompiledAPIRoute)
    (rqBody : Option (RqBody α)) (rsBody : Option β) (tries : Int) (opts : List RequestOpt)
    (rq : Request) (result : Except Error Response) (fuel fuel1 : Nat) (N : Int)
    (h : Event.httpDo tries rq result ∈
      (retryFuel c cRoute (fuel + 1) rqBody rsBody tries opts).events)
    (hn : ∀ rs, result = .ok rs → rs.StatusCode ≠ 429) :
    retryFuel { c with MaxRetries := N } cRoute (fuel1 + 1) rqBody rsBody tries opts =
      retryFuel c cRoute (fuel + 1) rqBody rsBody tries opts := by
  revert h
  simp only [retryFuel, buildRequest_maxRetries]
  repeat' split
  all_goals intro h
  all_goals first
    | rfl
    | (exfalso
       simp at h
       exact hn _ (h.2.trans (by assumption)) (by assumption))

theorem retryFuel_last_attempt_events (c : clientImpl α β) (cRoute : CompiledAPIRoute)
    (rqBody : Option (RqBody α)) (rsBody : Option β) (tries : Int) (opts : List RequestOpt)
    (rq : Request) (result : Except Error Response) (fuel : Nat)
    (h : Event.httpDo tries rq result ∈
      (retryFuel c cRoute (fuel + 1) rqBody rsBody tries opts).events)
    (hn : ∀ rs, result = .ok rs → rs.StatusCode ≠ 429) :
    httpCount (retryFuel c cRoute (fuel + 1) rqBody rsBody tries opts).events = 1 ∧
    (∀ e ∈ (retryFuel c cRoute (fuel + 1) rqBody rsBody tries opts).events, e.tries = tries) ∧
    ((∀ rs, result = .ok rs → rs.Body ≠ none) →
      ∃ err, (retryFuel c cRoute (fuel + 1) rqBody rsBody tries opts).outcome
        = .returned err) ∧
    (∀ err, result = .error err →
      (retryFuel c cRoute (fuel + 1) rqBody rsBody tries opts).outcome
        = .returned (some (.Wrap err "error doing request in rest client"))) := by
  have hc : ∀ cs i, ∀ e ∈ (runChecks tries cs i).1, e.tries = tries :=
    fun cs i e he => (runChecks_mem tries cs i e he).2
  have hd : ∀ cfg, ∀ e ∈ (waitDelay cfg tries).1, e.tries = tries :=
    fun cfg e he => (waitDelay_mem cfg tries e he).2
  revert h
  simp only [retryFuel]
  repeat' split
  all_goals intro h
  all_goals first
    | (simp at h; done)
    | (exfalso
       simp at h
       exact hn _ (h.2.trans (by assumption)) (by assumption))
    | skip
  all_goals
    refine ⟨by simp [Event.isHTTPDo], ?_, ?_, ?_⟩
    · simp only [List.forall_mem_append, List.forall_mem_cons, List.forall_mem_singleton,
        List.not_mem_nil, false_implies, implies_true, Event.tries_waitBucket,
        Event.tries_unlockBucket, Event.tries_httpDo, Event.tries_decode, true_and,
        and_true]
      try ((repeat' (refine And.intro ?_ ?_)) <;> first | exact hd _ | exact hc _ _)
    · first
      | exact fun _ => ⟨_, rfl⟩
      | (intro hb
         exfalso
         simp at h
         exact hb _ (h.2.trans (by assumption)) (by assumption))
    · intro err he
      simp at h
      have h4 := h.2
      simp only [*] at h4
      first
      | (cases h4; rfl)
      | cases h4

/-- What the last attempt returns: after a transport failure the wrapped transport error;
after a response whose headers the rate limiter refuses, the wrapped error of the rate
limiter; otherwise the outcome of the response. -/
theorem retryFuel_last_attempt_outcome (c : clientImpl α β) (cRoute : CompiledAPIRoute)
    (rqBody : Option (RqBody α)) (rsBody : Option β) (tries : Int) (opts : List RequestOpt)
    (rq : Request) (result : Except Error Response) (fuel : Nat)
    (h : Event.httpDo tries rq result ∈
      (retryFuel c cRoute (fuel + 1) rqBody rsBody tries opts).events)
    (hn : ∀ rs, result = .ok rs → rs.StatusCode ≠ 429) :
    result = c.HTTPClientDo tries rq ∧
    (∀ err, result = .error err →
      (retryFuel c cRoute (fuel + 1) rqBody rsBody tries opts).outcome
        = .returned (some (.Wrap err "error doing request in rest client")) ∧
      (retryFuel c cRoute (fuel + 1) rqBody rsBody tries opts).rsBody = rsBody) ∧
    (∀ rs err, result = .ok rs → c.UnlockBucket tries (some rs.Header) = some err →
      (retryFuel c cRoute (fuel + 1) rqBody rsBody tries opts).outcome
        = .returned (some (.Wrap err "error unlocking bucket in rest client")) ∧
      (retryFuel c cRoute (fuel + 1) rqBody rsBody tries opts).rsBody = rsBody) ∧
    (∀ rs, result = .ok rs → c.UnlockBucket tries (some rs.Header) = none →
      Surfaced c rs rsBody (retryFuel c cRoute (fuel + 1) rqBody rsBody tries opts)) := by
  revert h
  simp only [retryFuel]
  repeat' split
  all_goals intro h
  all_goals first
    | (simp at h; done)
    | (exfalso
       simp at h
       exact hn _ (h.2.trans (by assumption)) (by assumption))
    | skip
  all_goals
    simp at h
    obtain ⟨h1, h2⟩ := h
    subst h1
    refine ⟨h2, ?_, ?_, ?_⟩
    · intro err he
      simp_all
    · intro rs err he hu
      simp_all
    · intro rs he hu
      simp_all [Surfaced]

/-- C5, as amended: when the first exchange of a call of `Do` ends in anything but a 429
response (the transport fails, or the response has another status), this exchange is the
only one, every call made belongs to the first attempt, and the run is the same for every
value of `MaxRetries`. What the call returns is the outcome of this exchange: after a
transport failure the transport error, wrapped; after a response whose headers
`UnlockBucket` accepts, the outcome of the response by its status (`Surfaced`). When
`UnlockBucket` returns an error for the response, the call returns that error, wrapped,
instead, and leaves the result target as it was. -/
theorem only_429_retried (c : clientImpl α β) (cRoute : CompiledAPIRoute)
    (rqBody : Option (RqBody α)) (rsBody : Option β) (opts : List RequestOpt)
    (rq : Request) (result : Except Error Response)
    (h : Event.httpDo 1 rq result ∈ (Do c cRoute rqBody rsBody opts).events)
    (hn : ∀ rs, result = .ok rs → rs.StatusCode ≠ 429) :
    httpCount (Do c cRoute rqBody rsBody opts).events = 1 ∧
    (∀ e ∈ (Do c cRoute rqBody rsBody opts).events, e.tries = 1) ∧
    (∀ N : Int, Do { c with MaxRetries := N } cRoute rqBody rsBody opts
      = Do c cRoute rqBody rsBody opts) ∧
    result = c.HTTPClientDo 1 rq ∧
    (∀ err, result = .error err →
      (Do c cRoute rqBody rsBody opts).outcome
        = .returned (some (.Wrap err "error doing request in rest client")) ∧
      (Do c cRoute rqBody rsBody opts).rsBody = rsBody) ∧
    (∀ rs err, result = .ok rs → c.UnlockBucket 1 (some rs.Header) = some err →
      (Do c cRoute rqBody rsBody opts).outcome
        = .returned (some (.Wrap err "error unlocking bucket in rest client")) ∧
      (Do c cRoute rqBody rsBody opts).rsBody = rsBody) ∧
    (∀ rs, result = .ok rs → c.UnlockBucket 1 (some rs.Header) = none →
      Surfaced c rs rsBody (Do c cRoute rqBody rsBody opts)) := by
  unfold Do retry at h ⊢
  obtain ⟨h1, h2, _, _⟩ := retryFuel_last_attempt_events c cRoute rqBody rsBody 1 opts rq
    result _ h hn
  obtain ⟨h5, h6, h7, h8⟩ := retryFuel_last_attempt_outcome c cRoute rqBody rsBody 1 opts rq
    result _ h hn
  exact ⟨h1, h2, fun N => retryFuel_last_attempt c cRoute rqBody rsBody 1 opts rq result _ _ N
    h hn, h5, h6, h7, h8⟩

/-- C5, as amended, at a response with status 404 and a retry budget of three: one
exchange, the same run as with a budget of seven, and the API error of this response is
what `Do` returns. -/
theorem only_429_retried_witness :
    Event.httpDo 1 exampleRequest (.ok notFound) ∈
      (Do (exampleClient 3 always404) exampleRoute none (none : Option Nat) []).events ∧
    (∀ rs, Except.ok notFound = (.ok rs : Except Error Response) → rs.StatusCode ≠ 429) ∧
    httpCount (Do (exampleClient 3 always404) exampleRoute none (none : Option Nat) []).events
      = 1 ∧
    Do { exampleClient 3 always404 with MaxRetries := 7 } exampleRoute none
        (none : Option Nat) []
      = Do (exampleClient 3 always404) exampleRoute none (none : Option Nat) [] ∧
    Surfaced (exampleClient 3 always404) notFound none
      (Do (exampleClient 3 always404) exampleRoute none (none : Option Nat) []) :=
  have h : Event.httpDo 1 exampleRequest (.ok notFound) ∈
      (Do (exampleClient 3 always404) exampleRoute none (none : Option Nat) []).events := by
    decide
  have hn : ∀ rs, Except.ok notFound = (.ok rs : Except Error Response) →
      rs.StatusCode ≠ 429 := by
    intro rs hrs
    cases hrs
    decide
  ⟨h, hn, (only_429_retried _ _ _ _ _ _ _ h hn).1,
    (only_429_retried _ _ _ _ _ _ _ h hn).2.2.1 7,
    (only_429_retried _ _ _ _ _ _ _ h hn).2.2.2.2.2.2 notFound rfl rfl⟩

/-- C5 as stated fails when the rate limiter refuses the headers of the response: the first
exchange ends in a 200 whose body decodes to `5`, yet `Do` returns the error of
`UnlockBucket` and leaves the target at `9`, which is not the outcome of the exchange. -/
theorem unlock_error_replaces_outcome :
    Event.httpDo 1 exampleRequest (.ok okFive) ∈
      (Do refusingLimiter exampleRoute none (some 9) []).events ∧
    okFive.StatusCode ≠ 429 ∧
    httpCount (Do refusingLimiter exampleRoute none (some 9) []).events = 1 ∧
    (Do refusingLimiter exampleRoute none (some 9) []).outcome =
      .returned (some (.Wrap (.foreign "invalid value for remaining")
        "error unlocking bucket in rest client")) ∧
    (Do refusingLimiter exampleRoute none (some 9) []).rsBody = some 9 ∧
    ¬ Surfaced refusingLimiter okFive (some 9)
      (Do refusingLimiter exampleRoute none (some 9) []) := by
  refine ⟨by decide, by decide, by decide, by decide, by decide, ?_⟩
  intro hs
  unfold Surfaced at hs
  rw [if_pos (by decide)] at hs
  exact absurd hs.1 (by decide)

/-! ## A successful status without a body -/

/-- C6 (scenario D), the code at a response with status 204 and no content, with a result
target that holds `7`: the body the HTTP client hands over is an empty reader, not nil, so
the test of line 180 passes, the decoder is called on the empty body and fails at once
(with `io.EOF`), and `retry` returns the error made by `NewErrorErr` instead of nil. -/
theorem no_content_is_decoded :
    (retry (exampleClient 3 always204) exampleRoute none (some 7) 1 []).events =
      [.waitBucket 1 none, .httpDo 1 exampleRequest (.ok noContent),
        .unlockBucket 1 (some noContent.Header) none, .decode 1 []] ∧
    noContent.StatusCode = 204 ∧ noContent.Body = some [] ∧
    (retry (exampleClient 3 always204) exampleRoute none (some 7) 1 []).outcome =
      .returned (some (.NewErrorErr exampleRequest [] noContent []
        (.Wrap (.foreign "EOF") "error unmarshalling response body"))) ∧
    (retry (exampleClient 3 always204) exampleRoute none (some 7) 1 []).outcome
      ≠ .returned none := by
  decide

/-! ## An abort before the send -/

theorem waitDelay_snd_of_mem (config : RequestConfig) (t : Int) (cause : Error)
    (h : Event.delay t (some cause) ∈ (waitDelay config t).1) :
    (waitDelay config t).2 = some cause := by
  unfold waitDelay at h ⊢
  split
  · simp_all
  · simp_all

theorem isWaitBucket_of_mem_waitDelay (config : RequestConfig) (t : Int) :
    ∀ e ∈ (waitDelay config t).1, e.isWaitBucket = false := by
  intro e he
  have := (waitDelay_mem config t e he).1
  cases e <;> simp_all [Event.isDelay, Event.isWaitBucket]

/-- C7: when the attempt is aborted before the send with the error `cause`, either because
the context is done during a positive pre-send delay or because `WaitBucket` returns
`cause`, `retry` performs no HTTP exchange. In the first case it returns `cause` itself and
has not called `WaitBucket`; in the second it returns `cause` wrapped with the message
"error locking bucket in rest client". -/
theorem abort_before_send (c : clientImpl α β) (cRoute : CompiledAPIRoute)
    (rqBody : Option (RqBody α)) (rsBody : Option β) (tries : Int) (opts : List RequestOpt)
    (cause : Error)
    (h : Event.delay tries (some cause) ∈ (retry c cRoute rqBody rsBody tries opts).events ∨
      Event.waitBucket tries (some cause) ∈ (retry c cRoute rqBody rsBody tries opts).events) :
    httpCount (retry c cRoute rqBody rsBody tries opts).events = 0 ∧
    (∃ err, (retry c cRoute rqBody rsBody tries opts).outcome = .returned (some err) ∧
      err.Cause = cause.Cause) ∧
    (Event.delay tries (some cause) ∈ (retry c cRoute rqBody rsBody tries opts).events →
      (retry c cRoute rqBody rsBody tries opts).outcome = .returned (some cause) ∧
      ∀ e ∈ (retry c cRoute rqBody rsBody tries opts).events, e.isWaitBucket = false) ∧
    (Event.waitBucket tries (some cause) ∈ (retry c cRoute rqBody rsBody tries opts).events →
      (retry c cRoute rqBody rsBody tries opts).outcome =
        .returned (some (.Wrap cause "error locking bucket in rest client"))) := by
  unfold retry at h ⊢
  revert h
  simp only [retryFuel]
  repeat' split
  all_goals intro h
  all_goals first
    | (simp at h; done)
    | (exfalso
       simp at h
       have := waitDelay_snd_of_mem _ _ _ (by simpa using h)
       simp_all
       done)
    | skip
  · rename_i _ rq0 raw rqBody1 hb _ err hdone
    have hm : Event.delay tries (some cause) ∈ (waitDelay (configOf rq0 opts) tries).1 := by
      simpa [configOf] using h
    have h2 := waitDelay_snd_of_mem _ _ _ hm
    rw [configOf, hdone, Option.some.injEq] at h2
    subst h2
    exact ⟨by simp, ⟨_, rfl, rfl⟩, fun _ => ⟨rfl, isWaitBucket_of_mem_waitDelay _ _⟩,
      fun hw => by simp at hw⟩
  · rename_i _ rq0 raw rqBody1 hb _ hdone _ err hwait
    have hno : Event.delay tries (some cause) ∉ (waitDelay (configOf rq0 opts) tries).1 := by
      intro hm
      have h2 := waitDelay_snd_of_mem _ _ _ hm
      rw [configOf, hdone] at h2
      cases h2
    have hw : cause = err := by
      rcases h with h | h
      · exfalso
        apply hno
        simpa [configOf] using h
      · simpa using h
    subst hw
    refine ⟨by simp [Event.isHTTPDo], ⟨_, rfl, rfl⟩, fun hd => ?_, fun _ => rfl⟩
    exfalso
    apply hno
    simpa [configOf] using hd

/-- C7 at a context that is cancelled during a delay of five, and at a rate limiter whose
`WaitBucket` is cancelled: no exchange in either run, and no `WaitBucket` in the first. -/
theorem abort_before_send_witness :
    (Event.delay 1 (some (.foreign "context canceled")) ∈
      (retry (exampleClient 3 always204) exampleRoute none (none : Option Nat) 1
        [cancelledDelay]).events ∧
      httpCount (retry (exampleClient 3 always204) exampleRoute none (none : Option Nat) 1
        [cancelledDelay]).events = 0 ∧
      (retry (exampleClient 3 always204) exampleRoute none (none : Option Nat) 1
        [cancelledDelay]).outcome = .returned (some (.foreign "context canceled")) ∧
      ∀ e ∈ (retry (exampleClient 3 always204) exampleRoute none (none : Option Nat) 1
        [cancelledDelay]).events, e.isWaitBucket = false) ∧
    (Event.waitBucket 1 (some (.foreign "context canceled")) ∈
      (retry cancelledWait exampleRoute none (none : Option Nat) 1 []).events ∧
      httpCount (retry cancelledWait exampleRoute none (none : Option Nat) 1 []).events = 0 ∧
      (retry cancelledWait exampleRoute none (none : Option Nat) 1 []).outcome =
        .returned (some (.Wrap (.foreign "context canceled")
          "error locking bucket in rest client"))) :=
  have h1 : Event.delay 1 (some (.foreign "context canceled")) ∈
      (retry (exampleClient 3 always204) exampleRoute none (none : Option Nat) 1
        [cancelledDelay]).events := by decide
  have h2 : Event.waitBucket 1 (some (.foreign "context canceled")) ∈
      (retry cancelledWait exampleRoute none (none : Option Nat) 1 []).events := by decide
  ⟨⟨h1, (abort_before_send _ _ _ _ _ _ _ (Or.inl h1)).1,
      ((abort_before_send _ _ _ _ _ _ _ (Or.inl h1)).2.2.1 h1).1,
      ((abort_before_send _ _ _ _ _ _ _ (Or.inl h1)).2.2.1 h1).2⟩,
    ⟨h2, (abort_before_send _ _ _ _ _ _ _ (Or.inr h2)).1,
      (abort_before_send _ _ _ _ _ _ _ (Or.inr h2)).2.2.2 h2⟩⟩

/-! ## The encoding of the request body -/

theorem newRequest_ok (c : clientImpl α β) (cRoute : CompiledAPIRoute) (raw : Bytes)
    (ct : String) (rq : Request) (h : newRequest c cRoute raw ct = .ok rq) :
    rq.Body = raw ∧ Header.Get rq.Header "Content-Type" = ct ∧
    (Header.Has rq.Header "Content-Type" = true ↔ ct ≠ "") := by
  unfold newRequest at h
  split at h
  · cases h
  · by_cases hct : ct = ""
    · subst hct
      simp at h
      subst h
      simp [Header.Get, Header.Has, Header.Set]
    · simp [hct] at h
      subst h
      simp [Header.Get, Header.Has, Header.Set, hct]

/-- C8: the request `retry` builds (lines 98-133, before the options are applied) has the
bytes of the encoded body as its body, and its Content-Type is chosen by the type of
`rqBody`: for a multipart buffer the content type of the buffer (the header is set when that
is not empty) and the bytes of the buffer; for `url.Values` the URL-encoded form type and
the URL encoding; for any other value the JSON type and the JSON encoding; for nil no
Content-Type header and an empty body. -/
theorem body_encoding (c : clientImpl α β) (cRoute : CompiledAPIRoute)
    (rqBody : Option (RqBody α)) (rq : Request) (raw : Bytes)
    (h : (buildRequest c cRoute rqBody).1 = .ok (rq, raw)) :
    rq.Body = raw ∧
    match rqBody with
    | none => Header.Has rq.Header "Content-Type" = false ∧ rq.Body = []
    | some (.multipart buffer contentType) =>
      Header.Get rq.Header "Content-Type" = contentType ∧ rq.Body = buffer ∧
      (Header.Has rq.Header "Content-Type" = true ↔ contentType ≠ "")
    | some (.urlValues v) =>
      Header.Get rq.Header "Content-Type" = "application/x-www-form-urlencoded" ∧
      Header.Has rq.Header "Content-Type" = true ∧ rq.Body = c.urlEncode v
    | some (.other v) =>
      Header.Get rq.Header "Content-Type" = "application/json" ∧
      Header.Has rq.Header "Content-Type" = true ∧ c.jsonEncode v = .ok rq.Body := by
  unfold buildRequest at h
  rcases rqBody with _ | (⟨buffer, contentType⟩ | v | v)
  · simp only [encodeBody] at h
    split at h
    · cases h
    · rename_i hrq
      simp only [Except.ok.injEq, Prod.mk.injEq] at h
      obtain ⟨h1, h2⟩ := h
      subst h1 h2
      obtain ⟨hb, hg, hh⟩ := newRequest_ok _ _ _ _ _ hrq
      refine ⟨hb, ?_, hb⟩
      simpa using hh
  · simp only [encodeBody] at h
    split at h
    · cases h
    · rename_i hrq
      simp only [Except.ok.injEq, Prod.mk.injEq] at h
      obtain ⟨h1, h2⟩ := h
      subst h1 h2
      obtain ⟨hb, hg, hh⟩ := newRequest_ok _ _ _ _ _ hrq
      exact ⟨hb, hg, hb, hh⟩
  · simp only [encodeBody] at h
    split at h
    · cases h
    · rename_i hrq
      simp only [Except.ok.injEq, Prod.mk.injEq] at h
      obtain ⟨h1, h2⟩ := h
      subst h1 h2
      obtain ⟨hb, hg, hh⟩ := newRequest_ok _ _ _ _ _ hrq
      exact ⟨hb, hg, hh.2 (by decide), hb⟩
  · simp only [encodeBody] at h
    cases hv : c.jsonEncode v with
    | error err => simp [hv] at h
    | ok buffer =>
      simp only [hv] at h
      split at h
      · cases h
      · rename_i hrq
        simp only [Except.ok.injEq, Prod.mk.injEq] at h
        obtain ⟨h1, h2⟩ := h
        subst h1 h2
        obtain ⟨hb, hg, hh⟩ := newRequest_ok _ _ _ _ _ hrq
        exact ⟨hb, hg, hh.2 (by decide), by rw [hb]; exact hv⟩

/-- C8 at a multipart buffer, at form values and at a JSON value. -/
theorem body_encoding_witness :
    (buildRequest (exampleClient 3 always204) exampleRoute
        (some (.multipart [45, 45, 120] "multipart/form-data; boundary=x"))).1
      = .ok (multipartRequest, [45, 45, 120]) ∧
    (multipartRequest.Body = [45, 45, 120] ∧
      Header.Get multipartRequest.Header "Content-Type" = "multipart/form-data; boundary=x" ∧
      multipartRequest.Body = [45, 45, 120] ∧
      (Header.Has multipartRequest.Header "Content-Type" = true ↔
        "multipart/form-data; boundary=x" ≠ "")) :=
  ⟨by decide,
    body_encoding (exampleClient 3 always204) exampleRoute
      (some (.multipart [45, 45, 120] "multipart/form-data; boundary=x")) multipartRequest
      [45, 45, 120] (by decide)⟩

/-! ## The remove methods of the message-update builder -/

/-- The two slice expressions of a remove method, for an index inside the slice. -/
theorem slices_inside {τ : Type} (s : List τ) (i : Int) (h0 : 0 ≤ i) (h1 : i < s.length) :
    sliceTo s i = some (s.take i.toNat) ∧ sliceFrom s (i + 1) = some (s.drop (i.toNat + 1)) := by
  have e : (i + 1).toNat = i.toNat + 1 := by omega
  refine ⟨?_, ?_⟩
  · simp only [sliceTo]
    rw [if_pos ⟨h0, by omega⟩]
  · simp only [sliceFrom]
    rw [if_pos ⟨by omega, by omega⟩, e]

/-- C9: for a builder whose `Embeds` is `L` and an index `i` with `0 ≤ i < len(L)`,
`RemoveEmbed(i)` leaves `Embeds` equal to `L` with its element number `i` deleted: one
element shorter, the elements before `i` in place and each later element moved down by one;
for `i ≥ len(L)` it leaves the builder unchanged. The same holds for `RemoveActionRow` on
`Components` and for `RemoveFiles` on `Files`. -/
theorem remove_exactly_one (b : MessageUpdateBuilder E C F) (i : Int) :
    ((0 ≤ i → i < b.Embeds.length →
        b.RemoveEmbed i = some { b with Embeds := b.Embeds.eraseIdx i.toNat } ∧
        (b.Embeds.eraseIdx i.toNat).length = b.Embeds.length - 1 ∧
        (∀ j, j < i.toNat → (b.Embeds.eraseIdx i.toNat)[j]? = b.Embeds[j]?) ∧
        (∀ j, i.toNat ≤ j → (b.Embeds.eraseIdx i.toNat)[j]? = b.Embeds[j + 1]?)) ∧
      ((b.Embeds.length : Int) ≤ i → b.RemoveEmbed i = some b)) ∧
    ((0 ≤ i → i < b.Components.length →
        b.RemoveActionRow i = some { b with Components := b.Components.eraseIdx i.toNat } ∧
        (b.Components.eraseIdx i.toNat).length = b.Components.length - 1 ∧
        (∀ j, j < i.toNat → (b.Components.eraseIdx i.toNat)[j]? = b.Components[j]?) ∧
        (∀ j, i.toNat ≤ j → (b.Components.eraseIdx i.toNat)[j]? = b.Components[j + 1]?)) ∧
      ((b.Components.length : Int) ≤ i → b.RemoveActionRow i = some b)) ∧
    ((0 ≤ i → i < b.Files.length →
        b.RemoveFiles i = some { b with Files := b.Files.eraseIdx i.toNat } ∧
        (b.Files.eraseIdx i.toNat).length = b.Files.length - 1 ∧
        (∀ j, j < i.toNat → (b.Files.eraseIdx i.toNat)[j]? = b.Files[j]?) ∧
        (∀ j, i.toNat ≤ j → (b.Files.eraseIdx i.toNat)[j]? = b.Files[j + 1]?)) ∧
      ((b.Files.length : Int) ≤ i → b.RemoveFiles i = some b)) := by
  refine ⟨⟨fun h0 h1 => ⟨?_, ?_, ?_, ?_⟩, fun h => ?_⟩, ⟨fun h0 h1 => ⟨?_, ?_, ?_, ?_⟩, fun h => ?_⟩,
    ⟨fun h0 h1 => ⟨?_, ?_, ?_, ?_⟩, fun h => ?_⟩⟩
  · obtain ⟨e1, e2⟩ := slices_inside b.Embeds i h0 h1
    simp only [MessageUpdateBuilder.RemoveEmbed, e1, e2, List.eraseIdx_eq_take_drop_succ]
    rw [if_pos (by omega)]
  · rw [List.length_eraseIdx, if_pos (by omega)]
  · exact fun j hj => List.getElem?_eraseIdx_of_lt _ _ _ hj
  · exact fun j hj => List.getElem?_eraseIdx_of_ge _ _ _ hj
  · simp only [MessageUpdateBuilder.RemoveEmbed]
    rw [if_neg (by omega)]
  · obtain ⟨e1, e2⟩ := slices_inside b.Components i h0 h1
    simp only [MessageUpdateBuilder.RemoveActionRow, e1, e2, List.eraseIdx_eq_take_drop_succ]
    rw [if_pos (by omega)]
  · rw [List.length_eraseIdx, if_pos (by omega)]
  · exact fun j hj => List.getElem?_eraseIdx_of_lt _ _ _ hj
  · exact fun j hj => List.getElem?_eraseIdx_of_ge _ _ _ hj
  · simp only [MessageUpdateBuilder.RemoveActionRow]
    rw [if_neg (by omega)]
  · obtain ⟨e1, e2⟩ := slices_inside b.Files i h0 h1
    simp only [MessageUpdateBuilder.RemoveFiles, e1, e2, List.eraseIdx_eq_take_drop_succ]
    rw [if_pos (by omega)]
  · rw [List.length_eraseIdx, if_pos (by omega)]
  · exact fun j hj => List.getElem?_eraseIdx_of_lt _ _ _ hj
  · exact fun j hj => List.getElem?_eraseIdx_of_ge _ _ _ hj
  · simp only [MessageUpdateBuilder.RemoveFiles]
    rw [if_neg (by omega)]

/-- C9 at a builder with three embeds, two components and one file: index 1 removes the
middle embed and the last component, and is past the end of the files. -/
theorem remove_exactly_one_witness :
    exampleBuilder.RemoveEmbed 1 = some { exampleBuilder with Embeds := ["a", "c"] } ∧
    exampleBuilder.RemoveActionRow 1 = some { exampleBuilder with Components := [10] } ∧
    exampleBuilder.RemoveFiles 1 = some exampleBuilder :=
  ⟨((remove_exactly_one exampleBuilder 1).1.1 (by decide) (by decide)).1,
    ((remove_exactly_one exampleBuilder 1).2.1.1 (by decide) (by decide)).1,
    (remove_exactly_one exampleBuilder 1).2.2.2 (by decide)⟩

/-- A request body that building the request leaves as it was (nil, `url.Values`, a JSON
value) makes every attempt send the same request. -/
theorem sent_request_stable (c : clientImpl α β) (cRoute : CompiledAPIRoute)
    (opts : List RequestOpt) (fuel : Nat) :
    ∀ (rqBody : Option (RqBody α)) (rsBody : Option β) (tries : Int) (rq0 : Request)
      (raw : Bytes), buildRequest c cRoute rqBody = (.ok (rq0, raw), rqBody) →
      ∀ t rq r, Event.httpDo t rq r ∈ (retryFuel c cRoute fuel rqBody rsBody tries opts).events →
        rq = (configOf rq0 opts).Request := by
  induction fuel with
  | zero => intro _ _ _ _ _ _ t rq r h; simp [retryFuel] at h
  | succ fuel ih =>
    intro rqBody rsBody tries rq0 raw hb t rq r
    have ih1 := ih rqBody rsBody (tries + 1) rq0 raw hb t rq r
    simp only [retryFuel, hb]
    repeat' split
    all_goals intro h
    all_goals first
      | (simp at h; done)
      | (simp at h; exact h.2.1)
      | (simp at h
         rcases h with h | h
         · exact h.2.1
         · exact ih1 h)

theorem mem_sentBodies (a : Bytes) (es : List Event) :
    a ∈ sentBodies es ↔ ∃ t rq r, Event.httpDo t rq r ∈ es ∧ rq.Body = a := by
  induction es with
  | nil => simp [sentBodies]
  | cons e es ih =>
    constructor
    · intro h
      have step : a ∈ sentBodies es → ∃ t rq r, Event.httpDo t rq r ∈ e :: es ∧ rq.Body = a :=
        fun h => by
          obtain ⟨t1, rq1, r1, h1, h2⟩ := ih.1 h
          exact ⟨t1, rq1, r1, List.mem_cons_of_mem _ h1, h2⟩
      cases e with
      | httpDo t rq r =>
        simp only [sentBodies, List.mem_cons] at h
        rcases h with h | h
        · exact ⟨t, rq, r, List.mem_cons_self _ _, h.symm⟩
        · exact step h
      | delay _ _ => exact step h
      | waitBucket _ _ => exact step h
      | check _ _ _ => exact step h
      | unlockBucket _ _ _ => exact step h
      | decode _ _ => exact step h
    · rintro ⟨t1, rq1, r1, h1, h2⟩
      rcases List.mem_cons.1 h1 with h1 | h1
      · subst h1
        simp [sentBodies, h2]
      · have := ih.2 ⟨t1, rq1, r1, h1, h2⟩
        cases e <;> simp [sentBodies, this]

/-- For `url.Values` and for a JSON value, every attempt of `Do` sends the same body
bytes: what fails for a multipart buffer holds for the two other kinds of body. -/
theorem sent_body_stable (c : clientImpl α β) (cRoute : CompiledAPIRoute)
    (rqBody : RqBody α) (rsBody : Option β) (opts : List RequestOpt)
    (hk : ∀ buffer contentType, rqBody ≠ .multipart buffer contentType) :
    ∀ a ∈ sentBodies (Do c cRoute (some rqBody) rsBody opts).events,
      ∀ b ∈ sentBodies (Do c cRoute (some rqBody) rsBody opts).events, a = b := by
  have hst : (buildRequest c cRoute (some rqBody)).2 = some rqBody := by
    rw [buildRequest_snd]
    rcases rqBody with ⟨buffer, contentType⟩ | v | v
    · exact absurd rfl (hk buffer contentType)
    · rfl
    · simp only [encodeBody]
      split <;> rfl
  rcases hbr : buildRequest c cRoute (some rqBody) with ⟨res, st⟩
  rw [hbr] at hst
  simp only at hst
  subst hst
  rcases res with err | ⟨rq0, raw⟩
  · intro a ha
    simp [Do, retry, retryFuel, hbr, sentBodies] at ha
  · intro a ha b hb
    rw [mem_sentBodies] at ha hb
    obtain ⟨t, rq, r, h1, h2⟩ := ha
    obtain ⟨t1, rq1, r1, h3, h4⟩ := hb
    have e1 := sent_request_stable c cRoute opts _ _ rsBody 1 rq0 raw hbr t rq r h1
    have e2 := sent_request_stable c cRoute opts _ _ rsBody 1 rq0 raw hbr t1 rq1 r1 h3
    rw [← h2, ← h4, e1, e2]

/-! ## The request body across retries -/

/-- C10, the code at a multipart body and a server that answers 429 three times: the first
attempt sends the bytes of the buffer, the two retries send an empty body, because the
first attempt has read the buffer to its end. -/
theorem multipart_body_lost_on_retry :
    sentBodies (Do (exampleClient 3 always429) exampleRoute
      (some (.multipart [45, 45, 120] "multipart/form-data; boundary=x"))
      (none : Option Nat) []).events = [[45, 45, 120], [], []] ∧
    (Do (exampleClient 3 always429) exampleRoute
      (some (.multipart [45, 45, 120] "multipart/form-data; boundary=x"))
      (none : Option Nat) []).rqBody
      = some (.multipart [] "multipart/form-data; boundary=x") := by
  decide

/-! ## The bodies recorded in an error -/

/-- C11, the code at a request with the JSON body `[7]` and four answers of the server,
one for each place where `retry` builds an error: status 401 (body `[52, 48, 49]`), status
429 until the retry budget is used up (body `[123, 125]`), status 404 with a decodable API
error (body `[10, 0, 0, 3]`), and status 200 with a body that does not decode. The
request-body argument of the error constructor is `[7]`, as the claim says, but so is the
response-body argument: it is the request bytes, never the bytes of the response body. -/
theorem error_carries_request_body_twice :
    (Do (exampleClient 3 always401) exampleRoute (some (.other 7)) (none : Option Nat)
        []).outcome
      = .returned (some (.NewError jsonRequest [7] unauthorized [7])) ∧
    unauthorized.Body = some [52, 48, 49] ∧
    (Do (exampleClient 1 always429) exampleRoute (some (.other 7)) (none : Option Nat)
        []).outcome
      = .returned (some (.NewError jsonRequest [7] tooManyRequests [7])) ∧
    tooManyRequests.Body = some [123, 125] ∧
    (Do (exampleClient 3 always404) exampleRoute (some (.other 7)) (none : Option Nat)
        []).outcome
      = .returned (some (.NewErrorAPIErr jsonRequest [7] notFound [7] ⟨10, "error"⟩)) ∧
    notFound.Body = some [10, 0, 0, 3] ∧
    (Do (exampleClient 3 always200) exampleRoute (some (.other 7)) (some 9) []).outcome
      = .returned (some (.NewErrorErr jsonRequest [7] emptyOK [7]
          (.Wrap (.foreign "EOF") "error unmarshalling response body"))) ∧
    emptyOK.Body = some [] := by
  decide

end Disgo
